import Mathlib

/-!
Verification of the directory analysis and filtering engine of
`codebase_digest/app.py` (the `should_ignore`, `is_text_file`,
`extract_classes_and_functions` and `analyze_directory` functions).

Modelling conventions:
* Paths are represented as lists of path segments; a path is absolute and
  segments contain no `/`.  `os.path.basename` is the last segment,
  `os.path.relpath(path, base)` for a path lying under `base` is the suffix
  of segments after `base`, joined with `/`, and `os.path.abspath` is the
  segments joined with `/` and a leading `/`.
* File bytes are `List Nat` (each byte `< 256` on a real filesystem); the
  decoded text returned by `read_file_content` is carried as a separate
  `String` field, since the UTF-8 codec is external to the program.
* The external `tiktoken` tokenizer (`count_tokens`) is a parameter
  `tok : String → Nat` of the configuration, as is the external
  `re.finditer` block scanner used by `extract_classes_and_functions`
  (parameters `classBlocks`, `funcBlocks` listing the class-like and
  function-like block matches of a content string, in order of occurrence).
* The glob matcher models the stdlib `fnmatch.fnmatch` for patterns built
  from literal characters, `*` and `?` (the forms the program's
  documentation names); character-class syntax is not modelled.
* The staging-directory side effect (`temp_dir` copies) does not influence
  the returned tree and is omitted, as are the debug prints.  Directory
  listing and file reads are assumed to succeed inside the traversal
  (`PermissionError` recovery only truncates a listing).
-/

/-- Decoded view of one on-disk file: its raw bytes and the text that
`read_file_content` produces for it. -/
structure FileData where
  bytes : List Nat
  text : String

/-- A filesystem tree: files carry `FileData`, directories carry their
listing as `(entry name, entry)` pairs in `os.listdir` order. -/
inductive FS where
  | file : FileData → FS
  | dir : List (String × FS) → FS

/-- The node dictionaries built by `analyze_directory`: file nodes carry the
keys `name/size/tokens/content/is_ignored` of the source dict, directory
nodes the keys `name/size/children/total_tokens/file_count/dir_count/
text_content_size/total_text_size/is_ignored`.  The extra `isTextFlag` on
file nodes records the source's local variable `is_text` (it influences the
`text_content_size` bookkeeping in the source loop but is not a dict key);
it is bookkeeping only and is read by no later computation. -/
inductive Node where
  | file (name : String) (size : Nat) (tokens : Nat) (content : String)
      (isIgnoredFlag : Bool) (isTextFlag : Bool) : Node
  | dir (name : String) (size : Nat) (children : List Node) (total_tokens : Nat)
      (file_count : Nat) (dir_count : Nat) (text_content_size : Nat)
      (total_text_size : Nat) (isIgnoredFlag : Bool) : Node

/-- Shell-style glob matching on character lists: `*` matches any run of
characters (any suffix of the remaining input), `?` any single character,
anything else itself.  This models `fnmatch.fnmatch` on POSIX for the
pattern forms the program uses. -/
def globMatchChars : List Char → List Char → Bool
  | [], cs => cs.isEmpty
  | '*' :: ps, cs => (cs.tails).any fun t => globMatchChars ps t
  | '?' :: ps, cs =>
      match cs with
      | [] => false
      | _ :: cs2 => globMatchChars ps cs2
  | p :: ps, cs =>
      match cs with
      | [] => false
      | c :: cs2 => (p == c) && globMatchChars ps cs2

/-- Models `fnmatch.fnmatch(name, pattern)`. -/
def fnmatch (name pattern : String) : Bool :=
  globMatchChars pattern.data name.data

/-- Python's substring test `pattern in s`. -/
def strContains (s pattern : String) : Bool :=
  (List.range (s.data.length + 1)).any fun i => pattern.data.isPrefixOf (s.data.drop i)

/-- Python's `s.startswith(pat)` on the character data. -/
def strStartsWith (s pat : String) : Bool := pat.data.isPrefixOf s.data

/-- Python's `s.endswith(pat)` on the character data. -/
def strEndsWith (s pat : String) : Bool := pat.data.isSuffixOf s.data

/-- Python's `s[1:]` on the character data. -/
def strDropOne (s : String) : String := String.mk (s.data.drop 1)

/-- Helper for `splitSlash`: the accumulator holds the current segment
reversed. -/
def splitSlashAux : List Char → List Char → List String
  | [], acc => [String.mk acc.reverse]
  | c :: rest, acc =>
      if c == '/' then String.mk acc.reverse :: splitSlashAux rest []
      else splitSlashAux rest (c :: acc)

/-- Python's `s.split(os.sep)` for `os.sep = "/"` (note `"".split("/")`
is `[""]`). -/
def splitSlash (s : String) : List String := splitSlashAux s.data []

/-- Models `os.path.basename` on a segment path. -/
def basenameOf (path : List String) : String := path.getLastD ""

/-- Segments of `os.path.relpath(path, base)` for a path under `base`. -/
def relSegsOf (path base : List String) : List String := path.drop base.length

/-- Models `os.path.relpath(path, base)` for a path under `base`. -/
def relPathOf (path base : List String) : String :=
  String.intercalate "/" (relSegsOf path base)

/-- Models `os.path.abspath` on a segment path. -/
def absPathOf (path : List String) : String :=
  "/" ++ String.intercalate "/" path

/-- Models `os.path.join(b, t)` for one textual tail component. -/
def joinPathStr (b t : String) : String :=
  if strStartsWith t "/" then t
  else if strEndsWith b "/" then b ++ t
  else b ++ "/" ++ t

/-- Loop body of `should_ignore` (app.py lines 64-71): does one pattern
match the path in any of the five ways checked by the source? -/
def matchesPattern (path base : List String) (pattern : String) : Bool :=
  fnmatch (basenameOf path) pattern ||
  fnmatch (relPathOf path base) pattern ||
  fnmatch (absPathOf path) pattern ||
  (strStartsWith pattern "/" &&
    fnmatch (absPathOf path) (joinPathStr (absPathOf base) (strDropOne pattern))) ||
  (splitSlash (relPathOf path base)).any fun part => fnmatch part pattern

/-- Models `should_ignore(path, base_path, ignore_patterns)` (app.py lines 59-72):
the loop with early `return True` is the existence of a matching pattern. -/
def should_ignore (path base : List String) (patterns : List String) : Bool :=
  patterns.any (matchesPattern path base)

/-- The byte set deleted by `chunk.translate(None, bytes([...]))` in
`is_text_file`: bell/backspace/tab/newline/form-feed/carriage-return/escape
plus `range(0x20, 0x100)`. -/
def deleteBytes : List Nat :=
  [7, 8, 9, 10, 12, 13, 27] ++ (List.range 224).map (fun i => 32 + i)

/-- Models `is_text_file(file_path)` (app.py lines 75-82) on the outcome of reading
the file (`none` models an `IOError`): read the first 1024 bytes, delete
every byte of `deleteBytes`, and classify as text when nothing remains. -/
def is_text_file : Option (List Nat) → Bool
  | none => false
  | some bytes =>
      ((bytes.take 1024).filter (fun b => !(deleteBytes.contains b))).isEmpty

/-- Keep test applied to each regex block match in
`extract_classes_and_functions`: `any(pattern in block for pattern in filter_patterns)`. -/
def keepBlock (filter_patterns : List String) (block : String) : Bool :=
  filter_patterns.any fun pattern => strContains block pattern

/-- Models `extract_classes_and_functions(content, filter_patterns)` (app.py lines
104-124), with the external `re.finditer` enumeration of class-like and
function-like blocks supplied as `classBlocks`/`funcBlocks`: starting from
the empty string, append `block + "\n\n"` for each kept class block, then
for each kept function block. -/
def extract_classes_and_functions (classBlocks funcBlocks : String → List String)
    (content : String) (filter_patterns : List String) : String :=
  let step := fun (acc : String) (block : String) =>
    if keepBlock filter_patterns block then acc ++ (block ++ "\n\n") else acc
  (funcBlocks content).foldl step ((classBlocks content).foldl step "")

/-- Configuration threaded through `analyze_directory`: the scan root
(`base_path`), the pooled ignore patterns, the CLI switches, and the
external tokenizer and block-scanner services.  A `filter_patterns` value
of `[]` models Python's falsy `None`/empty list. -/
structure Config where
  base : List String
  ignore_patterns : List String
  include_git : Bool
  max_depth : Option Nat
  filter_patterns : List String
  extract_definitions : Bool
  tok : String → Nat
  classBlocks : String → List String
  funcBlocks : String → List String

/-- The `max_depth is not None and current_depth > max_depth` test. -/
def depthExceeded (max_depth : Option Nat) (current_depth : Nat) : Bool :=
  match max_depth with
  | none => false
  | some m => decide (m < current_depth)

/-- Content filtering applied to a text file's content (app.py lines
173-185): with no filter configured the content passes unchanged; otherwise
every pattern must occur in the content, and with `--extract-definitions`
the content is narrowed to the extracted definitions, an empty extraction
dropping the file. -/
def filteredContent (cfg : Config) (content : String) : Option String :=
  if cfg.filter_patterns.isEmpty then some content
  else if !(cfg.filter_patterns.all fun pattern => strContains content pattern) then none
  else if cfg.extract_definitions then
    let extracted :=
      extract_classes_and_functions cfg.classBlocks cfg.funcBlocks content cfg.filter_patterns
    if extracted == "" then none else some extracted
  else some content

/-- Processing of one non-ignored file entry (app.py lines 168-209): text
files yield their (possibly filtered) content and token count unless the
filter drops them (`none`); non-text files always yield the sentinel with
zero tokens.  The `Bool` component is the source's `is_text` local. -/
def fileResult (cfg : Config) (fd : FileData) : Option (String × Nat × Bool) :=
  if is_text_file (some fd.bytes) then
    match filteredContent cfg fd.text with
    | none => none
    | some content => some (content, cfg.tok content, true)
  else some ("[Non-text file]", 0, false)

/-- Accumulator for the `for item in os.listdir(path)` loop of
`analyze_directory`: the mutable fields of the `result` dict plus the
`has_matching_files` flag. -/
structure LoopAcc where
  children : List Node
  size : Nat
  total_tokens : Nat
  file_count : Nat
  dir_count : Nat
  text_content_size : Nat
  total_text_size : Nat
  has_matching_files : Bool

/-- State of the loop accumulator before any iteration. -/
def LoopAcc.empty : LoopAcc :=
  { children := [], size := 0, total_tokens := 0, file_count := 0, dir_count := 0,
    text_content_size := 0, total_text_size := 0, has_matching_files := false }

/-- Sequencing of loop iterations: children concatenate, numeric fields
add, the flag is disjunction. -/
def LoopAcc.combine (a b : LoopAcc) : LoopAcc :=
  { children := a.children ++ b.children
    size := a.size + b.size
    total_tokens := a.total_tokens + b.total_tokens
    file_count := a.file_count + b.file_count
    dir_count := a.dir_count + b.dir_count
    text_content_size := a.text_content_size + b.text_content_size
    total_text_size := a.total_text_size + b.total_text_size
    has_matching_files := a.has_matching_files || b.has_matching_files }

/-- The `total_text_size` bookkeeping of app.py lines 158-160 for one file
entry: its size when it is classified text, else nothing. -/
def fileTTS (fd : FileData) : Nat :=
  if is_text_file (some fd.bytes) then fd.bytes.length else 0

/-- Loop effect of one non-ignored file entry (app.py lines 168-216): when
`fileResult` keeps the file a child node is appended and the aggregates
grow; a file dropped by the filter only leaves its `total_text_size`
bookkeeping (which line 160 performed before the filter ran). -/
def fileAcc (cfg : Config) (name : String) (fd : FileData) : LoopAcc :=
  match fileResult cfg fd with
  | none => { LoopAcc.empty with total_text_size := fileTTS fd }
  | some (content, tokens, istext) =>
      { children := [Node.file name fd.bytes.length tokens content false istext]
        size := fd.bytes.length
        total_tokens := tokens
        file_count := 1
        dir_count := 0
        text_content_size := if istext then content.length else 0
        total_text_size := fileTTS fd
        has_matching_files := istext }

/-- Loop effect of one non-ignored directory entry (app.py lines 217-240),
given the recursive result: a subdirectory is kept only when the recursion
returned a node with a nonempty `children` list; its `is_ignored` key is
then set (to `false`, since ignored entries were skipped) and the
aggregates grow — `total_text_size` deliberately not among them. -/
def dirAcc (sub : Option Node) : LoopAcc :=
  match sub with
  | some (Node.dir sname ssize schildren stt sfc sdc stcs stts _) =>
      if schildren.isEmpty then LoopAcc.empty
      else
        { children := [Node.dir sname ssize schildren stt sfc sdc stcs stts false]
          size := ssize
          total_tokens := stt
          file_count := sfc
          dir_count := 1 + sdc
          text_content_size := stcs
          total_text_size := 0
          has_matching_files := true }
  | _ => LoopAcc.empty

mutual

/-- Models `analyze_directory(path, ignore_patterns, base_path, include_git,
max_depth, current_depth, filter_patterns, extract_definitions, temp_dir)`
(app.py lines 127-249) on the directory `fs` located at `path`: `none` is
Python's `None` ("nothing to report"). -/
def analyze_directory (cfg : Config) (fs : FS) (path : List String)
    (current_depth : Nat) : Option Node :=
  match fs with
  | FS.file _ => none
  | FS.dir entries =>
      if depthExceeded cfg.max_depth current_depth then none
      else
        let acc := analyzeItems cfg entries path current_depth
        if acc.has_matching_files then
          some (Node.dir (basenameOf path) acc.size acc.children acc.total_tokens
            acc.file_count acc.dir_count acc.text_content_size acc.total_text_size false)
        else none

/-- The `for item in os.listdir(path)` loop of `analyze_directory` (app.py
lines 148-240) over the remaining entries: a `.git` entry is skipped
outright unless `include_git`; then `total_text_size` bookkeeping happens
for text files; then ignored entries are skipped from all further
analysis; remaining entries are processed as file or subdirectory. -/
def analyzeItems (cfg : Config) (items : List (String × FS)) (path : List String)
    (current_depth : Nat) : LoopAcc :=
  match items with
  | [] => LoopAcc.empty
  | (name, c) :: rest =>
      let headAcc :=
        if name == ".git" && !cfg.include_git then LoopAcc.empty
        else if should_ignore (path ++ [name]) cfg.base cfg.ignore_patterns then
          match c with
          | FS.file fd => { LoopAcc.empty with total_text_size := fileTTS fd }
          | FS.dir _ => LoopAcc.empty
        else
          match c with
          | FS.file fd => fileAcc cfg name fd
          | FS.dir sub =>
              dirAcc (analyze_directory cfg (FS.dir sub) (path ++ [name]) (current_depth + 1))
      LoopAcc.combine headAcc (analyzeItems cfg rest path current_depth)

end

/-- The `is_ignored` key (or its `.get` default `False`) of a node. -/
def isIgnoredN : Node → Bool
  | Node.file _ _ _ _ ig _ => ig
  | Node.dir _ _ _ _ _ _ _ _ ig => ig

/-- The `size` key of a node. -/
def sizeN : Node → Nat
  | Node.file _ size _ _ _ _ => size
  | Node.dir _ size _ _ _ _ _ _ _ => size

/-- Token contribution of a child node to its parent (app.py lines 213/226):
`tokens` for files, `total_tokens` for directories. -/
def tokensN : Node → Nat
  | Node.file _ _ tokens _ _ _ => tokens
  | Node.dir _ _ _ total_tokens _ _ _ _ _ => total_tokens

/-- The `file_count` contribution of a child node (app.py lines 214/227). -/
def fileCountN : Node → Nat
  | Node.file _ _ _ _ _ _ => 1
  | Node.dir _ _ _ _ file_count _ _ _ _ => file_count

/-- The `dir_count` contribution of a child node (app.py line 228). -/
def dirCountN : Node → Nat
  | Node.file _ _ _ _ _ _ => 0
  | Node.dir _ _ _ _ _ dir_count _ _ _ => 1 + dir_count

/-- The `text_content_size` contribution of a child node (app.py lines 215-216/229):
the content length of a text file, `0` for a non-text file, the
`text_content_size` of a directory. -/
def textSizeN : Node → Nat
  | Node.file _ _ _ content _ istext => if istext then content.length else 0
  | Node.dir _ _ _ _ _ _ text_content_size _ _ => text_content_size

/-- Children of a node (files have none). -/
def childrenN : Node → List Node
  | Node.file _ _ _ _ _ _ => []
  | Node.dir _ _ children _ _ _ _ _ _ => children

/-- The `total_text_size` key of a node (`0` for files, which lack it). -/
def totalTextSizeN : Node → Nat
  | Node.file _ _ _ _ _ _ => 0
  | Node.dir _ _ _ _ _ _ _ total_text_size _ => total_text_size

/-- The `name` key of a node. -/
def nameN : Node → String
  | Node.file name _ _ _ _ _ => name
  | Node.dir name _ _ _ _ _ _ _ _ => name

/-- Children not flagged ignored — the ones the aggregate sums may count. -/
def includedOf (ns : List Node) : List Node :=
  ns.filter fun n => !(isIgnoredN n)

mutual

/-- Aggregation invariant checker: every directory node's `size`,
`total_tokens`, `file_count`, `dir_count` and `text_content_size` equal the
sums of the corresponding contributions of its non-ignored children,
recursively at every level. -/
def aggOk : Node → Bool
  | Node.file _ _ _ _ _ _ => true
  | Node.dir _ size children total_tokens file_count dir_count text_content_size _ _ =>
      (size == ((includedOf children).map sizeN).sum) &&
      (total_tokens == ((includedOf children).map tokensN).sum) &&
      (file_count == ((includedOf children).map fileCountN).sum) &&
      (dir_count == ((includedOf children).map dirCountN).sum) &&
      (text_content_size == ((includedOf children).map textSizeN).sum) &&
      aggOkAll children

/-- Checks `aggOk` at every member of a list. -/
def aggOkAll : List Node → Bool
  | [] => true
  | n :: ns => aggOk n && aggOkAll ns

end

mutual

/-- Pruning invariant checker: no directory node anywhere in the tree has
an empty children list. -/
def noEmptyDir : Node → Bool
  | Node.file _ _ _ _ _ _ => true
  | Node.dir _ _ children _ _ _ _ _ _ => (!children.isEmpty) && noEmptyAll children

/-- Checks `noEmptyDir` at every member of a list. -/
def noEmptyAll : List Node → Bool
  | [] => true
  | n :: ns => noEmptyDir n && noEmptyAll ns

end

/-- Discriminates directory nodes from file nodes. -/
def isDirN : Node → Bool
  | Node.file _ _ _ _ _ _ => false
  | Node.dir _ _ _ _ _ _ _ _ _ => true

/-- Does this file make its directory "matching": it must be classified
text and survive the content filter (and, with extraction on, produce a
nonempty extraction). -/
def fileMatching (cfg : Config) (fd : FileData) : Bool :=
  is_text_file (some fd.bytes) && (filteredContent cfg fd.text).isSome

mutual

/-- Existence of a non-ignored, reachable (depth within bounds, not inside
a skipped `.git`) text file passing the content filter in the subtree. -/
def dirMatching (cfg : Config) : FS → List String → Nat → Bool
  | FS.file _, _, _ => false
  | FS.dir entries, path, d =>
      if depthExceeded cfg.max_depth d then false
      else itemsMatching cfg entries path d

/-- Disjunction of `dirMatching` over the remaining loop entries. -/
def itemsMatching (cfg : Config) : List (String × FS) → List String → Nat → Bool
  | [], _, _ => false
  | (name, c) :: rest, path, d =>
      (if name == ".git" && !cfg.include_git then false
       else if should_ignore (path ++ [name]) cfg.base cfg.ignore_patterns then false
       else match c with
         | FS.file fd => fileMatching cfg fd
         | FS.dir sub => dirMatching cfg (FS.dir sub) (path ++ [name]) (d + 1))
      || itemsMatching cfg rest path d

end

mutual

/-- The item paths on which the traversal of `analyze_directory` evaluates
`should_ignore`: every listed entry except skipped `.git` entries, with no
descent below the depth bound, into ignored directories, or into files. -/
def visitedDir (cfg : Config) : FS → List String → Nat → List (List String)
  | FS.file _, _, _ => []
  | FS.dir entries, path, d =>
      if depthExceeded cfg.max_depth d then [] else visitedItems cfg entries path d

/-- Accumulation of `visitedDir` over the remaining loop entries. -/
def visitedItems (cfg : Config) : List (String × FS) → List String → Nat → List (List String)
  | [], _, _ => []
  | (name, c) :: rest, path, d =>
      (if name == ".git" && !cfg.include_git then []
       else
         (path ++ [name]) ::
           (if should_ignore (path ++ [name]) cfg.base cfg.ignore_patterns then []
            else match c with
              | FS.file _ => []
              | FS.dir sub => visitedDir cfg (FS.dir sub) (path ++ [name]) (d + 1)))
      ++ visitedItems cfg rest path d

end

/-- Sum of `total_text_size` contributions of the immediate entries of a
listing (app.py lines 152-160): text-classified files count their size,
ignored or not; skipped `.git` entries and subdirectories count nothing. -/
def directTextSize (include_git : Bool) : List (String × FS) → Nat
  | [] => 0
  | (name, c) :: rest =>
      (if name == ".git" && !include_git then 0
       else match c with
         | FS.file fd => fileTTS fd
         | FS.dir _ => 0) + directTextSize include_git rest

mutual

/-- Total size of all text-classified files anywhere in a filesystem tree. -/
def allTextSizeFS : FS → Nat
  | FS.file fd => fileTTS fd
  | FS.dir entries => allTextSizeItems entries

/-- Sum of `allTextSizeFS` over a listing. -/
def allTextSizeItems : List (String × FS) → Nat
  | [] => 0
  | (_, c) :: rest => allTextSizeFS c + allTextSizeItems rest

end

/-- Every entry of the listing is ignored by the patterns. -/
def allEntriesIgnored (cfg : Config) (entries : List (String × FS)) (path : List String) : Bool :=
  entries.all fun e => should_ignore (path ++ [e.1]) cfg.base cfg.ignore_patterns

/-- The `total_text_size` of an analysis result (`0` when absent). -/
def rootTTS : Option Node → Nat
  | none => 0
  | some n => totalTextSizeN n

/-- Invariant of the contribution of a single loop iteration, with `m` its
contribution to `has_matching_files` and `t` its contribution to
`total_text_size`. -/
def HeadInv (h : LoopAcc) (m : Bool) (t : Nat) : Prop :=
  h.size = ((includedOf h.children).map sizeN).sum ∧
  h.total_tokens = ((includedOf h.children).map tokensN).sum ∧
  h.file_count = ((includedOf h.children).map fileCountN).sum ∧
  h.dir_count = ((includedOf h.children).map dirCountN).sum ∧
  h.text_content_size = ((includedOf h.children).map textSizeN).sum ∧
  aggOkAll h.children = true ∧
  noEmptyAll h.children = true ∧
  (h.has_matching_files = true → h.children ≠ []) ∧
  h.total_text_size = t ∧
  h.has_matching_files = m

/-- Invariant carried by the loop accumulator (see `HeadInv`): totals are
the `itemsMatching` flag and the `directTextSize` bookkeeping of the
processed entries. -/
def AccInv (cfg : Config) (items : List (String × FS)) (path : List String)
    (d : Nat) (acc : LoopAcc) : Prop :=
  HeadInv acc (itemsMatching cfg items path d) (directTextSize cfg.include_git items)

/-- Invariant of a recursive `analyze_directory` call: presence of a result
coincides with `dirMatching`, and a returned node is a directory node
satisfying the aggregation and pruning invariants whose `total_text_size`
is the immediate text-file bookkeeping of its listing. -/
def DirInv (cfg : Config) (fs : FS) (path : List String) (d : Nat) : Prop :=
  ((analyze_directory cfg fs path d).isSome = dirMatching cfg fs path d) ∧
  ∀ n, analyze_directory cfg fs path d = some n →
    aggOk n = true ∧ noEmptyDir n = true ∧ isDirN n = true ∧
    ∀ entries, fs = FS.dir entries →
      totalTextSizeN n = directTextSize cfg.include_git entries

/-- Configuration for concrete runs: scan root `/r`, ignore patterns
`pats`, no content filter, no extraction, `.git` excluded, no depth bound,
and trivial external services. -/
def plainCfg (pats : List String) : Config :=
  { base := ["r"], ignore_patterns := pats, include_git := false,
    max_depth := none, filter_patterns := [], extract_definitions := false,
    tok := fun _ => 0, classBlocks := fun _ => [], funcBlocks := fun _ => [] }

/-- The spec's scenario listing: a 100-byte text file `a.py` next to a
binary file `b.bin`. -/
def scenarioFS : FS :=
  FS.dir [("a.py", FS.file ⟨List.replicate 100 97, "print(1)"⟩),
          ("b.bin", FS.file ⟨[0, 1, 2], "?"⟩)]

/-- Listing of a root whose only text file sits inside a subdirectory:
`sub/a.txt` with the three bytes of `"ABC"`. -/
def nestedEntries : List (String × FS) :=
  [("sub", FS.dir [("a.txt", FS.file ⟨[65, 66, 67], "ABC"⟩)])]

/-- The root directory over `nestedEntries`. -/
def nestedFS : FS := FS.dir nestedEntries

/-- The tree `analyze_directory` builds for `scenarioFS` with pattern
`*.bin`: only `a.py` is listed. -/
def scenarioNode : Node :=
  Node.dir "r" 100 [Node.file "a.py" 100 0 "print(1)" false true] 0 1 0 8 100 false

/-- The tree `analyze_directory` builds for `nestedFS` with no patterns. -/
def nestedNode : Node :=
  Node.dir "r" 3 [Node.dir "sub" 3 [Node.file "a.txt" 3 0 "ABC" false true] 0 1 0 3 3 false]
    0 1 1 3 0 false

/-- Configuration with the content filter `{"foo", "bar"}` configured and
extraction off. -/
def filterCfg : Config :=
  { base := ["r"], ignore_patterns := [], include_git := false,
    max_depth := none, filter_patterns := ["foo", "bar"], extract_definitions := false,
    tok := fun _ => 0, classBlocks := fun _ => [], funcBlocks := fun _ => [] }

/-- A text file whose raw content contains both `"foo"` and `"bar"`. -/
def fooBarFile : FileData := ⟨[102], "foo bar"⟩

/-- Configuration with filter `{"foo"}`, extraction on, and a block scanner
finding one class-like block containing `"foo"` and one function-like block
containing `"qux"`. -/
def extractCfg : Config :=
  { base := ["r"], ignore_patterns := [], include_git := false,
    max_depth := none, filter_patterns := ["foo"], extract_definitions := true,
    tok := fun _ => 0,
    classBlocks := fun _ => ["class A:\n    foo = 1"],
    funcBlocks := fun _ => ["def q():\n    return qux"] }

/-- Configuration with filter `{"zzz"}`, extraction on, and the same block
scanner as `extractCfg`: no block contains `"zzz"`, so extraction comes up
empty. -/
def extractZzzCfg : Config :=
  { base := ["r"], ignore_patterns := [], include_git := false,
    max_depth := none, filter_patterns := ["zzz"], extract_definitions := true,
    tok := fun _ => 0,
    classBlocks := fun _ => ["class A:\n    foo = 1"],
    funcBlocks := fun _ => ["def q():\n    return qux"] }

theorem combine_children (a b : LoopAcc) :
    (LoopAcc.combine a b).children = a.children ++ b.children := rfl

theorem combine_size (a b : LoopAcc) :
    (LoopAcc.combine a b).size = a.size + b.size := rfl

theorem combine_total_tokens (a b : LoopAcc) :
    (LoopAcc.combine a b).total_tokens = a.total_tokens + b.total_tokens := rfl

theorem combine_file_count (a b : LoopAcc) :
    (LoopAcc.combine a b).file_count = a.file_count + b.file_count := rfl

theorem combine_dir_count (a b : LoopAcc) :
    (LoopAcc.combine a b).dir_count = a.dir_count + b.dir_count := rfl

theorem combine_text_content_size (a b : LoopAcc) :
    (LoopAcc.combine a b).text_content_size = a.text_content_size + b.text_content_size := rfl

theorem combine_total_text_size (a b : LoopAcc) :
    (LoopAcc.combine a b).total_text_size = a.total_text_size + b.total_text_size := rfl

theorem combine_has_matching (a b : LoopAcc) :
    (LoopAcc.combine a b).has_matching_files = (a.has_matching_files || b.has_matching_files) := rfl

theorem includedOf_append (a b : List Node) :
    includedOf (a ++ b) = includedOf a ++ includedOf b := by
  simp [includedOf, List.filter_append]

theorem aggOkAll_append (a b : List Node) :
    aggOkAll (a ++ b) = (aggOkAll a && aggOkAll b) := by
  induction a with
  | nil => simp [aggOkAll]
  | cons n ns ih => simp [aggOkAll, ih, Bool.and_assoc]

theorem noEmptyAll_append (a b : List Node) :
    noEmptyAll (a ++ b) = (noEmptyAll a && noEmptyAll b) := by
  induction a with
  | nil => simp [noEmptyAll]
  | cons n ns ih => simp [noEmptyAll, ih, Bool.and_assoc]

theorem analyzeItems_cons (cfg : Config) (name : String) (c : FS)
    (rest : List (String × FS)) (path : List String) (d : Nat) :
    analyzeItems cfg ((name, c) :: rest) path d =
      LoopAcc.combine
        (if name == ".git" && !cfg.include_git then LoopAcc.empty
         else if should_ignore (path ++ [name]) cfg.base cfg.ignore_patterns then
           match c with
           | FS.file fd => { LoopAcc.empty with total_text_size := fileTTS fd }
           | FS.dir _ => LoopAcc.empty
         else
           match c with
           | FS.file fd => fileAcc cfg name fd
           | FS.dir sub =>
               dirAcc (analyze_directory cfg (FS.dir sub) (path ++ [name]) (d + 1)))
        (analyzeItems cfg rest path d) := by
  rw [analyzeItems.eq_def]

theorem itemsMatching_cons (cfg : Config) (name : String) (c : FS)
    (rest : List (String × FS)) (path : List String) (d : Nat) :
    itemsMatching cfg ((name, c) :: rest) path d =
      ((if name == ".git" && !cfg.include_git then false
        else if should_ignore (path ++ [name]) cfg.base cfg.ignore_patterns then false
        else match c with
          | FS.file fd => fileMatching cfg fd
          | FS.dir sub => dirMatching cfg (FS.dir sub) (path ++ [name]) (d + 1))
       || itemsMatching cfg rest path d) := by
  rw [itemsMatching.eq_def]

theorem fileAcc_has_matching (cfg : Config) (name : String) (fd : FileData) :
    (fileAcc cfg name fd).has_matching_files = fileMatching cfg fd := by
  unfold fileAcc fileResult fileMatching
  by_cases ht : is_text_file (some fd.bytes) = true
  · simp only [ht, if_true, Bool.true_and]
    cases hf : filteredContent cfg fd.text with
    | none => simp [hf, LoopAcc.empty]
    | some content => simp [hf]
  · simp only [Bool.not_eq_true] at ht
    simp [ht]

theorem analyzeItems_nil (cfg : Config) (path : List String) (d : Nat) :
    analyzeItems cfg [] path d = LoopAcc.empty := by
  rw [analyzeItems.eq_def]

theorem itemsMatching_nil (cfg : Config) (path : List String) (d : Nat) :
    itemsMatching cfg [] path d = false := by
  rw [itemsMatching.eq_def]

theorem analyze_directory_file (cfg : Config) (fd : FileData) (path : List String) (d : Nat) :
    analyze_directory cfg (FS.file fd) path d = none := by
  rw [analyze_directory.eq_def]

theorem analyze_directory_dir (cfg : Config) (entries : List (String × FS))
    (path : List String) (d : Nat) :
    analyze_directory cfg (FS.dir entries) path d =
      (if depthExceeded cfg.max_depth d then none
       else if (analyzeItems cfg entries path d).has_matching_files then
         some (Node.dir (basenameOf path) (analyzeItems cfg entries path d).size
           (analyzeItems cfg entries path d).children
           (analyzeItems cfg entries path d).total_tokens
           (analyzeItems cfg entries path d).file_count
           (analyzeItems cfg entries path d).dir_count
           (analyzeItems cfg entries path d).text_content_size
           (analyzeItems cfg entries path d).total_text_size false)
       else none) := by
  rw [analyze_directory.eq_def]

theorem dirMatching_file (cfg : Config) (fd : FileData) (path : List String) (d : Nat) :
    dirMatching cfg (FS.file fd) path d = false := by
  rw [dirMatching.eq_def]

theorem dirMatching_dir (cfg : Config) (entries : List (String × FS))
    (path : List String) (d : Nat) :
    dirMatching cfg (FS.dir entries) path d =
      (if depthExceeded cfg.max_depth d then false
       else itemsMatching cfg entries path d) := by
  rw [dirMatching.eq_def]

theorem aggOk_file (name : String) (size tokens : Nat) (content : String) (ig it : Bool) :
    aggOk (Node.file name size tokens content ig it) = true := by
  rw [aggOk.eq_def]

theorem aggOk_dir (name : String) (size : Nat) (children : List Node)
    (tt fc dc tcs tts : Nat) (flag : Bool) :
    aggOk (Node.dir name size children tt fc dc tcs tts flag) =
      ((size == ((includedOf children).map sizeN).sum) &&
       (tt == ((includedOf children).map tokensN).sum) &&
       (fc == ((includedOf children).map fileCountN).sum) &&
       (dc == ((includedOf children).map dirCountN).sum) &&
       (tcs == ((includedOf children).map textSizeN).sum) &&
       aggOkAll children) := by
  rw [aggOk.eq_def]

theorem aggOkAll_nil : aggOkAll [] = true := by
  rw [aggOkAll.eq_def]

theorem aggOkAll_cons (n : Node) (ns : List Node) :
    aggOkAll (n :: ns) = (aggOk n && aggOkAll ns) := by
  rw [aggOkAll.eq_def]

theorem noEmptyDir_file (name : String) (size tokens : Nat) (content : String) (ig it : Bool) :
    noEmptyDir (Node.file name size tokens content ig it) = true := by
  rw [noEmptyDir.eq_def]

theorem noEmptyDir_dir (name : String) (size : Nat) (children : List Node)
    (tt fc dc tcs tts : Nat) (flag : Bool) :
    noEmptyDir (Node.dir name size children tt fc dc tcs tts flag) =
      ((!children.isEmpty) && noEmptyAll children) := by
  rw [noEmptyDir.eq_def]

theorem noEmptyAll_nil : noEmptyAll [] = true := by
  rw [noEmptyAll.eq_def]

theorem noEmptyAll_cons (n : Node) (ns : List Node) :
    noEmptyAll (n :: ns) = (noEmptyDir n && noEmptyAll ns) := by
  rw [noEmptyAll.eq_def]

theorem HeadInv_empty : HeadInv LoopAcc.empty false 0 := by
  refine ⟨rfl, rfl, rfl, rfl, rfl, rfl, rfl, ?_, rfl, rfl⟩
  intro h
  cases h

theorem HeadInv_emptyTTS (fd : FileData) :
    HeadInv { LoopAcc.empty with total_text_size := fileTTS fd } false (fileTTS fd) := by
  refine ⟨rfl, rfl, rfl, rfl, rfl, rfl, rfl, ?_, rfl, rfl⟩
  intro h
  cases h

theorem HeadInv_combine {a b : LoopAcc} {ma mb : Bool} {ta tb : Nat}
    (hha : HeadInv a ma ta) (hhb : HeadInv b mb tb) :
    HeadInv (LoopAcc.combine a b) (ma || mb) (ta + tb) := by
  obtain ⟨a1, a2, a3, a4, a5, a6, a7, a8, a9, a10⟩ := hha
  obtain ⟨b1, b2, b3, b4, b5, b6, b7, b8, b9, b10⟩ := hhb
  refine ⟨?_, ?_, ?_, ?_, ?_, ?_, ?_, ?_, ?_, ?_⟩
  · rw [combine_size, combine_children, includedOf_append, List.map_append,
      List.sum_append, a1, b1]
  · rw [combine_total_tokens, combine_children, includedOf_append, List.map_append,
      List.sum_append, a2, b2]
  · rw [combine_file_count, combine_children, includedOf_append, List.map_append,
      List.sum_append, a3, b3]
  · rw [combine_dir_count, combine_children, includedOf_append, List.map_append,
      List.sum_append, a4, b4]
  · rw [combine_text_content_size, combine_children, includedOf_append, List.map_append,
      List.sum_append, a5, b5]
  · rw [combine_children, aggOkAll_append, a6, b6]
    rfl
  · rw [combine_children, noEmptyAll_append, a7, b7]
    rfl
  · intro hm
    rw [combine_has_matching] at hm
    rw [combine_children]
    intro heq
    rw [List.append_eq_nil] at heq
    rcases Bool.or_eq_true_iff.mp hm with h | h
    · exact a8 h heq.1
    · exact b8 h heq.2
  · rw [combine_total_text_size, a9, b9]
  · rw [combine_has_matching, a10, b10]

theorem HeadInv_fileAcc (cfg : Config) (name : String) (fd : FileData) :
    HeadInv (fileAcc cfg name fd) (fileMatching cfg fd) (fileTTS fd) := by
  rw [← fileAcc_has_matching cfg name fd]
  cases hres : fileResult cfg fd with
  | none =>
      unfold fileAcc
      rw [hres]
      exact HeadInv_emptyTTS fd
  | some triple =>
      obtain ⟨content, tokens, istext⟩ := triple
      unfold fileAcc
      rw [hres]
      refine ⟨?_, ?_, ?_, ?_, ?_, ?_, ?_, ?_, rfl, rfl⟩
      · simp [includedOf, isIgnoredN, sizeN]
      · simp [includedOf, isIgnoredN, tokensN]
      · simp [includedOf, isIgnoredN, fileCountN]
      · simp [includedOf, isIgnoredN, dirCountN]
      · simp [includedOf, isIgnoredN, textSizeN]
      · simp [aggOkAll_cons, aggOkAll_nil, aggOk_file]
      · simp [noEmptyAll_cons, noEmptyAll_nil, noEmptyDir_file]
      · intro _ h
        cases h

theorem dirAcc_some_dir (sname : String) (ssize : Nat) (sch : List Node)
    (stt sfc sdc stcs stts : Nat) (sflag : Bool) :
    dirAcc (some (Node.dir sname ssize sch stt sfc sdc stcs stts sflag)) =
      if sch.isEmpty then LoopAcc.empty
      else
        { children := [Node.dir sname ssize sch stt sfc sdc stcs stts false]
          size := ssize, total_tokens := stt, file_count := sfc, dir_count := 1 + sdc,
          text_content_size := stcs, total_text_size := 0, has_matching_files := true } := rfl

theorem HeadInv_dirAcc {o : Option Node} {m : Bool}
    (ho : o.isSome = m)
    (hn : ∀ n, o = some n →
      aggOk n = true ∧ noEmptyDir n = true ∧ isDirN n = true) :
    HeadInv (dirAcc o) m 0 := by
  cases o with
  | none =>
      rw [Option.isSome_none] at ho
      rw [← ho]
      exact HeadInv_empty
  | some n =>
      rw [Option.isSome_some] at ho
      obtain ⟨hagg, hne, hdir⟩ := hn n rfl
      cases n with
      | file nm sz tk ct ig it =>
          rw [isDirN] at hdir
          cases hdir
      | dir sname ssize sch stt sfc sdc stcs stts sflag =>
          rw [noEmptyDir_dir] at hne
          obtain ⟨h1, h2⟩ := Bool.and_eq_true_iff.mp hne
          have hcond : ¬(sch.isEmpty = true) := by
            cases hch : sch.isEmpty
            · exact fun hcontra => Bool.false_ne_true hcontra
            · rw [hch] at h1
              cases h1
          rw [← ho]
          rw [dirAcc_some_dir, if_neg hcond]
          refine ⟨?_, ?_, ?_, ?_, ?_, ?_, ?_, ?_, rfl, rfl⟩
          · simp [includedOf, isIgnoredN, sizeN]
          · simp [includedOf, isIgnoredN, tokensN]
          · simp [includedOf, isIgnoredN, fileCountN]
          · simp [includedOf, isIgnoredN, dirCountN]
          · simp [includedOf, isIgnoredN, textSizeN]
          · rw [aggOk_dir] at hagg
            simp [aggOkAll_cons, aggOkAll_nil, aggOk_dir, hagg]
          · simp [noEmptyAll_cons, noEmptyAll_nil, noEmptyDir_dir, h1, h2]
          · intro _ h
            cases h

theorem directTextSize_nil (g : Bool) : directTextSize g [] = 0 := by
  rw [directTextSize.eq_def]

theorem directTextSize_cons (g : Bool) (name : String) (c : FS) (rest : List (String × FS)) :
    directTextSize g ((name, c) :: rest) =
      ((if name == ".git" && !g then 0
        else match c with
          | FS.file fd => fileTTS fd
          | FS.dir _ => 0) + directTextSize g rest) := by
  rw [directTextSize.eq_def]

mutual

theorem itemsInvariant (cfg : Config) (items : List (String × FS)) (path : List String)
    (d : Nat) : AccInv cfg items path d (analyzeItems cfg items path d) := by
  cases items with
  | nil =>
      unfold AccInv
      rw [analyzeItems_nil, itemsMatching_nil, directTextSize_nil]
      exact HeadInv_empty
  | cons hd rest =>
      obtain ⟨name, c⟩ := hd
      have ihRest : AccInv cfg rest path d (analyzeItems cfg rest path d) :=
        itemsInvariant cfg rest path d
      unfold AccInv at ihRest ⊢
      rw [analyzeItems_cons, itemsMatching_cons, directTextSize_cons]
      by_cases hgit : (name == ".git" && !cfg.include_git) = true
      · rw [if_pos hgit, if_pos hgit, if_pos hgit]
        exact HeadInv_combine HeadInv_empty ihRest
      · rw [if_neg hgit, if_neg hgit, if_neg hgit]
        by_cases hig : should_ignore (path ++ [name]) cfg.base cfg.ignore_patterns = true
        · rw [if_pos hig, if_pos hig]
          cases c with
          | file fd => exact HeadInv_combine (HeadInv_emptyTTS fd) ihRest
          | dir sub => exact HeadInv_combine HeadInv_empty ihRest
        · rw [if_neg hig, if_neg hig]
          cases c with
          | file fd => exact HeadInv_combine (HeadInv_fileAcc cfg name fd) ihRest
          | dir sub =>
              have ihDir : DirInv cfg (FS.dir sub) (path ++ [name]) (d + 1) :=
                dirInvariant cfg (FS.dir sub) (path ++ [name]) (d + 1)
              obtain ⟨hoSome, hnode⟩ := ihDir
              exact HeadInv_combine
                (HeadInv_dirAcc hoSome
                  (fun n h => ⟨(hnode n h).1, (hnode n h).2.1, (hnode n h).2.2.1⟩))
                ihRest

theorem dirInvariant (cfg : Config) (fs : FS) (path : List String) (d : Nat) :
    DirInv cfg fs path d := by
  cases fs with
  | file fd =>
      constructor
      · rw [analyze_directory_file, dirMatching_file]
        rfl
      · intro n h
        rw [analyze_directory_file] at h
        exact Option.noConfusion h
  | dir entries =>
      have ih := itemsInvariant cfg entries path d
      unfold AccInv at ih
      obtain ⟨i1, i2, i3, i4, i5, i6, i7, i8, i9, i10⟩ := ih
      unfold DirInv
      rw [analyze_directory_dir, dirMatching_dir]
      by_cases hdep : depthExceeded cfg.max_depth d = true
      · rw [if_pos hdep, if_pos hdep]
        constructor
        · rfl
        · intro n h
          exact Option.noConfusion h
      · rw [if_neg hdep, if_neg hdep]
        by_cases hm : (analyzeItems cfg entries path d).has_matching_files = true
        · rw [if_pos hm]
          constructor
          · rw [Option.isSome_some, ← i10]
            exact hm.symm
          · intro n h
            injection h with h
            subst h
            refine ⟨?_, ?_, rfl, ?_⟩
            · simp [aggOk_dir, i1, i2, i3, i4, i5, i6]
            · have hne : (analyzeItems cfg entries path d).children ≠ [] := i8 hm
              simp [noEmptyDir_dir, i7, hne]
            · intro entries2 heq
              injection heq with heq
              subst heq
              simpa [totalTextSizeN] using i9
        · rw [if_neg hm]
          constructor
          · rw [Option.isSome_none, ← i10]
            exact (Bool.eq_false_iff.mpr hm).symm
          · intro n h
            exact Option.noConfusion h

end

theorem strFoldl_shift (l : List String) (a : String) :
    l.foldl (fun x y => x ++ y) a = a ++ l.foldl (fun x y => x ++ y) "" := by
  induction l generalizing a with
  | nil =>
      simp only [List.foldl_nil]
      rw [String.append_empty]
  | cons x xs ih =>
      simp only [List.foldl_cons]
      rw [ih (a ++ x), ih ("" ++ x), String.empty_append, String.append_assoc]

theorem strJoin_cons (s : String) (l : List String) :
    String.join (s :: l) = s ++ String.join l := by
  unfold String.join
  rw [List.foldl_cons, strFoldl_shift, String.empty_append]

theorem strJoin_append (a b : List String) :
    String.join (a ++ b) = String.join a ++ String.join b := by
  induction a with
  | nil =>
      rw [List.nil_append]
      unfold String.join
      rw [List.foldl_nil, String.empty_append]
  | cons x xs ih =>
      rw [List.cons_append, strJoin_cons, strJoin_cons, ih, String.append_assoc]

theorem should_ignore_append_one (path base : List String) (pats : List String) (q : String) :
    should_ignore path base (pats ++ [q]) =
      (should_ignore path base pats || matchesPattern path base q) := by
  unfold should_ignore
  rw [List.any_append]
  simp [List.any_cons, List.any_nil]

theorem itemsMatching_allIgnored (cfg : Config) (entries : List (String × FS))
    (path : List String) (d : Nat)
    (h : allEntriesIgnored cfg entries path = true) :
    itemsMatching cfg entries path d = false := by
  induction entries with
  | nil => exact itemsMatching_nil cfg path d
  | cons hd rest ih =>
      obtain ⟨name, c⟩ := hd
      unfold allEntriesIgnored at h
      rw [List.all_cons] at h
      obtain ⟨h1, h2⟩ := Bool.and_eq_true_iff.mp h
      rw [itemsMatching_cons, ih h2, Bool.or_false]
      by_cases hgit : (name == ".git" && !cfg.include_git) = true
      · rw [if_pos hgit]
      · rw [if_neg hgit, if_pos h1]

theorem visitedItems_nil (cfg : Config) (path : List String) (d : Nat) :
    visitedItems cfg [] path d = [] := by
  rw [visitedItems.eq_def]

theorem visitedItems_cons (cfg : Config) (name : String) (c : FS)
    (rest : List (String × FS)) (path : List String) (d : Nat) :
    visitedItems cfg ((name, c) :: rest) path d =
      ((if name == ".git" && !cfg.include_git then []
        else
          (path ++ [name]) ::
            (if should_ignore (path ++ [name]) cfg.base cfg.ignore_patterns then []
             else match c with
               | FS.file _ => []
               | FS.dir sub => visitedDir cfg (FS.dir sub) (path ++ [name]) (d + 1)))
       ++ visitedItems cfg rest path d) := by
  rw [visitedItems.eq_def]

theorem visitedDir_dir (cfg : Config) (entries : List (String × FS))
    (path : List String) (d : Nat) :
    visitedDir cfg (FS.dir entries) path d =
      (if depthExceeded cfg.max_depth d then [] else visitedItems cfg entries path d) := by
  rw [visitedDir.eq_def]

theorem fileAcc_addPattern (cfg : Config) (q : String) (name : String) (fd : FileData) :
    fileAcc { cfg with ignore_patterns := cfg.ignore_patterns ++ [q] } name fd =
      fileAcc cfg name fd := rfl

mutual

theorem itemsAddPattern (cfg : Config) (q : String) (items : List (String × FS))
    (path : List String) (d : Nat)
    (h : ∀ ip ∈ visitedItems cfg items path d, matchesPattern ip cfg.base q = false) :
    analyzeItems { cfg with ignore_patterns := cfg.ignore_patterns ++ [q] } items path d =
      analyzeItems cfg items path d := by
  cases items with
  | nil => rw [analyzeItems_nil, analyzeItems_nil]
  | cons hd rest =>
      obtain ⟨name, c⟩ := hd
      rw [visitedItems_cons] at h
      rw [analyzeItems_cons, analyzeItems_cons]
      by_cases hgit : (name == ".git" && !cfg.include_git) = true
      · have hgit2 : (name == ".git" &&
            !({ cfg with ignore_patterns := cfg.ignore_patterns ++ [q] } : Config).include_git)
            = true := hgit
        rw [if_pos hgit, if_pos hgit2]
        rw [if_pos hgit] at h
        rw [itemsAddPattern cfg q rest path d
          (fun ip hip => h ip (List.mem_append_right _ hip))]
      · have hgit2 : ¬(name == ".git" &&
            !({ cfg with ignore_patterns := cfg.ignore_patterns ++ [q] } : Config).include_git)
            = true := hgit
        rw [if_neg hgit, if_neg hgit2]
        rw [if_neg hgit] at h
        have hhead : matchesPattern (path ++ [name]) cfg.base q = false :=
          h (path ++ [name]) (List.mem_append_left _ (List.mem_cons_self _ _))
        have hsi : should_ignore (path ++ [name])
            ({ cfg with ignore_patterns := cfg.ignore_patterns ++ [q] } : Config).base
            ({ cfg with ignore_patterns := cfg.ignore_patterns ++ [q] } : Config).ignore_patterns
            = should_ignore (path ++ [name]) cfg.base cfg.ignore_patterns := by
          show should_ignore (path ++ [name]) cfg.base (cfg.ignore_patterns ++ [q]) = _
          rw [should_ignore_append_one, hhead, Bool.or_false]
        rw [hsi]
        by_cases hig : should_ignore (path ++ [name]) cfg.base cfg.ignore_patterns = true
        · rw [if_pos hig] at h
          rw [if_pos hig, if_pos hig]
          rw [itemsAddPattern cfg q rest path d
            (fun ip hip => h ip (List.mem_append_right _ hip))]
        · rw [if_neg hig] at h
          rw [if_neg hig, if_neg hig]
          cases c with
          | file fd =>
              simp only [fileAcc_addPattern,
                itemsAddPattern cfg q rest path d
                  (fun ip hip => h ip (List.mem_append_right _ hip))]
          | dir sub =>
              simp only [dirAddPattern cfg q (FS.dir sub) (path ++ [name]) (d + 1)
                  (fun ip hip => h ip
                    (List.mem_append_left _ (List.mem_cons_of_mem _ hip))),
                itemsAddPattern cfg q rest path d
                  (fun ip hip => h ip (List.mem_append_right _ hip))]

theorem dirAddPattern (cfg : Config) (q : String) (fs : FS) (path : List String) (d : Nat)
    (h : ∀ ip ∈ visitedDir cfg fs path d, matchesPattern ip cfg.base q = false) :
    analyze_directory { cfg with ignore_patterns := cfg.ignore_patterns ++ [q] } fs path d =
      analyze_directory cfg fs path d := by
  cases fs with
  | file fd => rw [analyze_directory_file, analyze_directory_file]
  | dir entries =>
      rw [visitedDir_dir] at h
      rw [analyze_directory_dir, analyze_directory_dir]
      by_cases hdep : depthExceeded cfg.max_depth d = true
      · have hdep2 : depthExceeded
            ({ cfg with ignore_patterns := cfg.ignore_patterns ++ [q] } : Config).max_depth d
            = true := hdep
        rw [if_pos hdep, if_pos hdep2]
      · have hdep2 : ¬ depthExceeded
            ({ cfg with ignore_patterns := cfg.ignore_patterns ++ [q] } : Config).max_depth d
            = true := hdep
        rw [if_neg hdep, if_neg hdep2]
        rw [if_neg hdep] at h
        rw [itemsAddPattern cfg q entries path d h]

end

theorem mem_deleteBytes_iff (b : Nat) :
    deleteBytes.contains b = true ↔
      (b = 7 ∨ b = 8 ∨ b = 9 ∨ b = 10 ∨ b = 12 ∨ b = 13 ∨ b = 27 ∨ (32 ≤ b ∧ b ≤ 255)) := by
  rw [List.elem_iff]
  unfold deleteBytes
  simp only [List.mem_append, List.mem_cons, List.not_mem_nil, or_false, List.mem_map,
    List.mem_range]
  constructor
  · rintro (h | ⟨i, hi, rfl⟩)
    · tauto
    · omega
  · intro h
    by_cases hb : 32 ≤ b ∧ b ≤ 255
    · exact Or.inr ⟨b - 32, by omega, by omega⟩
    · left
      tauto

theorem is_text_file_iff (bytes : List Nat) :
    is_text_file (some bytes) = true ↔
      ∀ b ∈ bytes.take 1024,
        b = 7 ∨ b = 8 ∨ b = 9 ∨ b = 10 ∨ b = 12 ∨ b = 13 ∨ b = 27 ∨ (32 ≤ b ∧ b ≤ 255) := by
  unfold is_text_file
  rw [List.isEmpty_iff, List.filter_eq_nil_iff]
  constructor
  · intro h b hb
    have hh := h b hb
    have hc : deleteBytes.contains b = true := by
      cases hcb : deleteBytes.contains b
      · rw [hcb] at hh
        simp at hh
      · rfl
    exact (mem_deleteBytes_iff b).mp hc
  · intro h b hb
    rw [(mem_deleteBytes_iff b).mpr (h b hb)]
    simp

theorem filterPatterns_isEmpty_false {cfg : Config} (h : cfg.filter_patterns ≠ []) :
    cfg.filter_patterns.isEmpty = false := by
  cases hfp : cfg.filter_patterns with
  | nil => exact absurd hfp h
  | cons a l => rfl

theorem filteredContent_of_empty (cfg : Config) (content : String)
    (h : cfg.filter_patterns = []) : filteredContent cfg content = some content := by
  unfold filteredContent
  rw [if_pos (by rw [h]; rfl)]

theorem filteredContent_all {cfg : Config} {content c2 : String}
    (hne : cfg.filter_patterns ≠ [])
    (h : filteredContent cfg content = some c2) :
    ∀ pattern ∈ cfg.filter_patterns, strContains content pattern = true := by
  unfold filteredContent at h
  rw [if_neg (by rw [filterPatterns_isEmpty_false hne]; exact Bool.false_ne_true)] at h
  by_cases hall : (cfg.filter_patterns.all fun pattern => strContains content pattern) = true
  · exact List.all_eq_true.mp hall
  · exfalso
    have hfalse := Bool.eq_false_iff.mpr hall
    rw [hfalse] at h
    simp at h

theorem fileAcc_children (cfg : Config) (name : String) (fd : FileData) :
    (fileAcc cfg name fd).children =
      (match fileResult cfg fd with
       | some (content, tokens, istext) =>
           [Node.file name fd.bytes.length tokens content false istext]
       | none => []) := by
  unfold fileAcc
  cases fileResult cfg fd with
  | none => rfl
  | some t =>
      obtain ⟨c2, tk, b2⟩ := t
      rfl

theorem foldl_keep_eq (pats : List String) (l : List String) (s : String) :
    l.foldl (fun acc block => if keepBlock pats block then acc ++ (block ++ "\n\n") else acc) s =
      s ++ String.join ((l.filter (keepBlock pats)).map (fun b => b ++ "\n\n")) := by
  induction l generalizing s with
  | nil =>
      rw [List.foldl_nil, List.filter_nil, List.map_nil]
      show s = s ++ String.join []
      rw [String.join]
      rw [List.foldl_nil, String.append_empty]
  | cons b bs ih =>
      rw [List.foldl_cons]
      by_cases hk : keepBlock pats b = true
      · rw [if_pos hk, ih, List.filter_cons_of_pos hk, List.map_cons, strJoin_cons,
          String.append_assoc]
      · rw [if_neg hk, ih, List.filter_cons_of_neg hk]

theorem extract_eq_join (classBlocks funcBlocks : String → List String) (content : String)
    (pats : List String) :
    extract_classes_and_functions classBlocks funcBlocks content pats =
      String.join ((((classBlocks content).filter (keepBlock pats)) ++
        ((funcBlocks content).filter (keepBlock pats))).map (fun b => b ++ "\n\n")) := by
  unfold extract_classes_and_functions
  rw [foldl_keep_eq, foldl_keep_eq, String.empty_append, List.map_append, strJoin_append]

theorem strJoin_blocks_eq_empty_iff (l : List String) :
    (String.join (l.map (fun b => b ++ "\n\n")) = "") ↔ l = [] := by
  cases l with
  | nil =>
      constructor
      · intro _
        rfl
      · intro _
        rfl
  | cons b bs =>
      rw [List.map_cons, strJoin_cons]
      constructor
      · intro h
        exfalso
        have hlen := congrArg String.length h
        rw [String.length_append, String.length_append] at hlen
        have h2 : ("\n\n" : String).length = 2 := rfl
        have h0 : ("" : String).length = 0 := rfl
        rw [h2, h0] at hlen
        omega
      · intro h
        exact absurd h (by simp)

/-- C1: in every tree returned by `analyze_directory`, every directory
node's aggregate fields `size`, `total_tokens`, `file_count`, `dir_count`
and `text_content_size` equal the sums of the corresponding contributions
of its non-ignored children — each file child counting `1` toward
`file_count`, each directory child counting `1` plus its own `dir_count`
toward `dir_count` — recursively at every level (the recursive checker
`aggOk`). -/
theorem c1_aggregation_invariant (cfg : Config) (fs : FS) (path : List String) (d : Nat)
    (n : Node) (h : analyze_directory cfg fs path d = some n) : aggOk n = true :=
  ((dirInvariant cfg fs path d).2 n h).1

theorem c1_aggregation_invariant_witness : aggOk scenarioNode = true :=
  c1_aggregation_invariant (plainCfg ["*.bin"]) scenarioFS ["r"] 0 scenarioNode (by rfl)

/-- C2: no directory node anywhere in a tree returned by
`analyze_directory` has an empty children list (the recursive checker
`noEmptyDir`), and calling `analyze_directory` on a root directory all of
whose entries are ignored by the ignore patterns returns `none`. -/
theorem c2_pruning_invariant (cfg : Config) (fs : FS) (entries : List (String × FS))
    (path : List String) (d : Nat) :
    (∀ n, analyze_directory cfg fs path d = some n → noEmptyDir n = true) ∧
    (allEntriesIgnored cfg entries path = true →
      analyze_directory cfg (FS.dir entries) path d = none) := by
  constructor
  · intro n h
    exact ((dirInvariant cfg fs path d).2 n h).2.1
  · intro hall
    have hiso := (dirInvariant cfg (FS.dir entries) path d).1
    rw [dirMatching_dir] at hiso
    have hitems := itemsMatching_allIgnored cfg entries path d hall
    have hfalse : (analyze_directory cfg (FS.dir entries) path d).isSome = false := by
      rw [hiso]
      by_cases hdep : depthExceeded cfg.max_depth d = true
      · rw [if_pos hdep]
      · rw [if_neg hdep]
        exact hitems
    cases hres : analyze_directory cfg (FS.dir entries) path d with
    | none => rfl
    | some n =>
        rw [hres] at hfalse
        exact absurd hfalse (by simp)

theorem c2_pruning_invariant_witness :
    analyze_directory (plainCfg ["*"]) (FS.dir [("x.txt", FS.file ⟨[65], "A"⟩)]) ["r"] 0
      = none :=
  (c2_pruning_invariant (plainCfg ["*"]) (FS.dir [("x.txt", FS.file ⟨[65], "A"⟩)])
    [("x.txt", FS.file ⟨[65], "A"⟩)] ["r"] 0).2 (by decide)

/-- C10: `analyze_directory` returns `none` exactly when the subtree holds
no non-ignored, reachable text file passing the content filter
(`dirMatching`); in particular binary files never count, so a directory
holding only binary files yields `none` and those binary files appear in no
tree. -/
theorem c10_binary_only_absence (cfg : Config) (fs : FS) (path : List String) (d : Nat) :
    analyze_directory cfg fs path d = none ↔ dirMatching cfg fs path d = false := by
  have h := (dirInvariant cfg fs path d).1
  cases hres : analyze_directory cfg fs path d with
  | none =>
      rw [hres] at h
      rw [Option.isSome_none] at h
      exact ⟨fun _ => h.symm, fun _ => rfl⟩
  | some n =>
      rw [hres] at h
      rw [Option.isSome_some] at h
      constructor
      · intro hcontra
        exact Option.noConfusion hcontra
      · intro hfalse
        rw [hfalse] at h
        exact absurd h (by simp)

/-- C8 (amended): a directory node returned by `analyze_directory` carries
in `total_text_size` exactly the sizes of the text-classified files among
its immediate entries (skipped `.git` aside), regardless of ignore status —
text files inside subdirectories are not counted. -/
theorem c8_total_text_size_direct (cfg : Config) (entries : List (String × FS))
    (path : List String) (d : Nat) (n : Node)
    (h : analyze_directory cfg (FS.dir entries) path d = some n) :
    totalTextSizeN n = directTextSize cfg.include_git entries :=
  ((dirInvariant cfg (FS.dir entries) path d).2 n h).2.2.2 entries rfl

theorem c8_total_text_size_direct_witness :
    totalTextSizeN nestedNode = directTextSize false nestedEntries :=
  c8_total_text_size_direct (plainCfg []) nestedEntries ["r"] 0 nestedNode (by rfl)

/-- C8 (counterexample): with no ignore patterns and no filter, the tree
built from `nestedFS` exists, its root reports `total_text_size = 0`, yet
the text files under the root total `3` bytes — the root field does not
count text files inside subdirectories, refuting the claimed equality with
the whole-tree total. -/
theorem c8_counterexample :
    (analyze_directory (plainCfg []) nestedFS ["r"] 0).isSome = true ∧
    rootTTS (analyze_directory (plainCfg []) nestedFS ["r"] 0) = 0 ∧
    allTextSizeFS nestedFS = 3 := by
  refine ⟨by decide, by decide, by decide⟩

/-- C9: extending the ignore-pattern list with a pattern `q` that matches
none of the item paths visited by the traversal leaves the result of
`analyze_directory` unchanged. -/
theorem c9_ignore_idempotence (cfg : Config) (q : String) (fs : FS) (path : List String)
    (d : Nat)
    (h : ∀ ip ∈ visitedDir cfg fs path d, matchesPattern ip cfg.base q = false) :
    analyze_directory { cfg with ignore_patterns := cfg.ignore_patterns ++ [q] } fs path d =
      analyze_directory cfg fs path d :=
  dirAddPattern cfg q fs path d h

theorem c9_ignore_idempotence_witness :
    analyze_directory { plainCfg [] with
        ignore_patterns := (plainCfg []).ignore_patterns ++ ["*.zzz"] } nestedFS ["r"] 0 =
      analyze_directory (plainCfg []) nestedFS ["r"] 0 :=
  c9_ignore_idempotence (plainCfg []) "*.zzz" nestedFS ["r"] 0 (by decide)

/-- C4: `is_text_file` consults at most the first 1024 bytes and returns
`true` exactly when every byte of that sample is one of
`{0x07, 0x08, 0x09, 0x0A, 0x0C, 0x0D, 0x1B}` or lies in `0x20`-`0xFF`; a
sample containing the byte `0x00` is classified binary, the empty file is
text, and a read failure yields `false`. -/
theorem c4_text_classification (bytes : List Nat) :
    (is_text_file (some bytes) = true ↔
      ∀ b ∈ bytes.take 1024,
        b = 7 ∨ b = 8 ∨ b = 9 ∨ b = 10 ∨ b = 12 ∨ b = 13 ∨ b = 27 ∨ (32 ≤ b ∧ b ≤ 255)) ∧
    ((0 : Nat) ∈ bytes.take 1024 → is_text_file (some bytes) = false) ∧
    (is_text_file (some ([] : List Nat)) = true) ∧
    (is_text_file none = false) ∧
    (is_text_file (some bytes) = is_text_file (some (bytes.take 1024))) := by
  refine ⟨is_text_file_iff bytes, ?_, by decide, rfl, ?_⟩
  · intro h0
    cases hres : is_text_file (some bytes)
    · rfl
    · exfalso
      have := (is_text_file_iff bytes).mp hres 0 h0
      omega
  · simp only [is_text_file]
    rw [List.take_take, Nat.min_self]

theorem c4_text_classification_witness : is_text_file (some [0, 65]) = false :=
  (c4_text_classification [0, 65]).2.1 (by decide)

/-- C7: `should_ignore` returns `true` exactly when some pattern
glob-matches the path's basename, its path relative to the base, its
absolute path, or a single segment of the relative path, or starts with `/`
and glob-matches the base joined with the pattern minus its leading slash;
and appending patterns never turns a `true` result into `false`. -/
theorem c7_should_ignore_characterization (path base : List String)
    (pats more : List String) :
    (should_ignore path base pats = true ↔
      ∃ pattern ∈ pats,
        (fnmatch (basenameOf path) pattern = true ∨
         fnmatch (relPathOf path base) pattern = true ∨
         fnmatch (absPathOf path) pattern = true ∨
         (strStartsWith pattern "/" = true ∧
           fnmatch (absPathOf path) (joinPathStr (absPathOf base) (strDropOne pattern))
             = true) ∨
         ∃ part ∈ splitSlash (relPathOf path base), fnmatch part pattern = true)) ∧
    (should_ignore path base pats = true → should_ignore path base (pats ++ more) = true) := by
  constructor
  · unfold should_ignore matchesPattern
    rw [List.any_eq_true]
    constructor
    · rintro ⟨pattern, hp, hm⟩
      refine ⟨pattern, hp, ?_⟩
      simp only [Bool.or_eq_true, Bool.and_eq_true, List.any_eq_true] at hm
      tauto
    · rintro ⟨pattern, hp, hm⟩
      refine ⟨pattern, hp, ?_⟩
      simp only [Bool.or_eq_true, Bool.and_eq_true, List.any_eq_true]
      tauto
  · intro h
    unfold should_ignore at h ⊢
    rw [List.any_append, h, Bool.true_or]

theorem c7_should_ignore_characterization_witness :
    should_ignore ["r", "b.bin"] ["r"] (["*.bin"] ++ ["keep"]) = true :=
  (c7_should_ignore_characterization ["r", "b.bin"] ["r"] ["*.bin"] ["keep"]).2 (by decide)

/-- C5: with filter patterns configured, a non-ignored text file is kept by
the traversal only if every required substring occurs in its raw content
(AND semantics); with no patterns configured every non-ignored text file
passes unchanged; and the children produced for a file entry are exactly
governed by `fileResult`. -/
theorem c5_filter_and_gate (cfg : Config) (fd : FileData) (name : String)
    (path : List String) (d : Nat) :
    (∀ content tokens istext, cfg.filter_patterns ≠ [] →
      fileResult cfg fd = some (content, tokens, istext) → istext = true →
      ∀ pattern ∈ cfg.filter_patterns, strContains fd.text pattern = true) ∧
    (cfg.filter_patterns = [] → is_text_file (some fd.bytes) = true →
      fileResult cfg fd = some (fd.text, cfg.tok fd.text, true)) ∧
    ((name == ".git" && !cfg.include_git) = false →
      should_ignore (path ++ [name]) cfg.base cfg.ignore_patterns = false →
      (analyzeItems cfg [(name, FS.file fd)] path d).children =
        (match fileResult cfg fd with
         | some (content, tokens, istext) =>
             [Node.file name fd.bytes.length tokens content false istext]
         | none => [])) := by
  refine ⟨?_, ?_, ?_⟩
  · intro content tokens istext hne hres htext
    unfold fileResult at hres
    by_cases ht : is_text_file (some fd.bytes) = true
    · rw [if_pos ht] at hres
      cases hf : filteredContent cfg fd.text with
      | none =>
          rw [hf] at hres
          exact Option.noConfusion hres
      | some c2 =>
          exact filteredContent_all hne hf
    · rw [if_neg ht] at hres
      injection hres with hres2
      have h3 : false = istext := congrArg (fun t => t.2.2) hres2
      rw [htext] at h3
      exact Bool.noConfusion h3
  · intro hempty ht
    unfold fileResult
    rw [if_pos ht, filteredContent_of_empty cfg fd.text hempty]
  · intro hgit hig
    rw [analyzeItems_cons, analyzeItems_nil, combine_children]
    rw [if_neg (by rw [hgit]; exact Bool.false_ne_true)]
    rw [if_neg (by rw [hig]; exact Bool.false_ne_true)]
    simp only [fileAcc_children]
    cases fileResult cfg fd with
    | none => rfl
    | some t =>
        obtain ⟨c2, tk, b2⟩ := t
        simp [LoopAcc.empty]

theorem c5_filter_and_gate_witness : strContains fooBarFile.text "foo" = true :=
  (c5_filter_and_gate filterCfg fooBarFile "a.py" ["r"] 0).1 "foo bar" 0 true (by decide)
    (by rfl) rfl "foo" (by decide)

/-- C6: `extract_classes_and_functions` returns exactly the kept class
blocks (in order) followed by the kept function blocks (in order), each
followed by a blank-line separator, a block being kept when it contains at
least one required substring (OR semantics); the result is empty exactly
when no block contains any pattern; and when filtering plus extraction are
enabled, a text file whose extraction is empty is dropped by the traversal
exactly like a filter failure. -/
theorem c6_extraction_or_gate (classBlocks funcBlocks : String → List String)
    (content : String) (pats : List String) (cfg : Config) (fd : FileData)
    (name : String) (path : List String) (d : Nat) :
    (extract_classes_and_functions classBlocks funcBlocks content pats =
      String.join ((((classBlocks content).filter (keepBlock pats)) ++
        ((funcBlocks content).filter (keepBlock pats))).map (fun b => b ++ "\n\n"))) ∧
    (extract_classes_and_functions classBlocks funcBlocks content pats = "" ↔
      ∀ block ∈ classBlocks content ++ funcBlocks content,
        ∀ pattern ∈ pats, strContains block pattern = false) ∧
    (cfg.filter_patterns ≠ [] → cfg.extract_definitions = true →
      is_text_file (some fd.bytes) = true →
      extract_classes_and_functions cfg.classBlocks cfg.funcBlocks fd.text cfg.filter_patterns
        = "" →
      fileResult cfg fd = none) ∧
    ((name == ".git" && !cfg.include_git) = false →
      should_ignore (path ++ [name]) cfg.base cfg.ignore_patterns = false →
      fileResult cfg fd = none →
      (analyzeItems cfg [(name, FS.file fd)] path d).children = []) := by
  refine ⟨extract_eq_join classBlocks funcBlocks content pats, ?_, ?_, ?_⟩
  · rw [extract_eq_join, ← List.filter_append, strJoin_blocks_eq_empty_iff,
      List.filter_eq_nil_iff]
    constructor
    · intro h block hb pattern hp
      have hnk := h block hb
      cases hc : strContains block pattern
      · rfl
      · exfalso
        apply hnk
        unfold keepBlock
        exact List.any_eq_true.mpr ⟨pattern, hp, hc⟩
    · intro h block hb hk
      unfold keepBlock at hk
      obtain ⟨pattern, hp, hc⟩ := List.any_eq_true.mp hk
      rw [h block hb pattern hp] at hc
      exact Bool.noConfusion hc
  · intro hne hext ht hempty
    unfold fileResult
    rw [if_pos ht]
    have hfc : filteredContent cfg fd.text = none := by
      unfold filteredContent
      rw [if_neg (by rw [filterPatterns_isEmpty_false hne]; exact Bool.false_ne_true)]
      by_cases hall :
          (cfg.filter_patterns.all fun pattern => strContains fd.text pattern) = true
      · rw [hall]
        simp only [Bool.not_true]
        rw [if_neg Bool.false_ne_true, if_pos hext]
        simp [hempty]
      · have hfalse := Bool.eq_false_iff.mpr hall
        rw [hfalse]
        simp
    rw [hfc]
  · intro hgit hig hnone
    rw [analyzeItems_cons, analyzeItems_nil, combine_children]
    rw [if_neg (by rw [hgit]; exact Bool.false_ne_true)]
    rw [if_neg (by rw [hig]; exact Bool.false_ne_true)]
    simp only [fileAcc_children, hnone]
    rfl

theorem c6_extraction_or_gate_witness :
    fileResult extractZzzCfg (FileData.mk [102] "zzz text") = none :=
  (c6_extraction_or_gate extractZzzCfg.classBlocks extractZzzCfg.funcBlocks "zzz text"
    ["zzz"] extractZzzCfg (FileData.mk [102] "zzz text") "a.py" ["r"] 0).2.2.1
    (by decide) rfl (by decide) (by decide)

/-- C3 evaluation: analyzing `scenarioFS` (text `a.py` of 100 bytes next to
binary `b.bin`) with ignore pattern `*.bin` yields a tree with
`file_count = 1`, but the ignored binary file is omitted from `children`
entirely — the loop skips ignored entries before the append — so no child
node carries `is_ignored = true` or the `[Non-text file]` sentinel, against
the documented ignored-but-displayed behavior. -/
theorem c3_ignored_omitted :
    analyze_directory (plainCfg ["*.bin"]) scenarioFS ["r"] 0 = some scenarioNode ∧
    fileCountN scenarioNode = 1 ∧
    (childrenN scenarioNode).length = 1 ∧
    (∀ child ∈ childrenN scenarioNode, nameN child ≠ "b.bin") := by
  refine ⟨by rfl, by decide, by decide, by decide⟩
